import Mathlib

/-!
Verification of the PR scoring and classification pipeline of the
github-repo-report-bot repository.

The Python source is embedded shallowly:
* Python `int` values become `Int` (Python integers are unbounded).
* The composite-score arithmetic (`_calc_total_score` in `src/analyzer.py`)
  is done over `ℚ`.  The Python code runs it on binary floats, but every
  input is an integer in a small range and every weight is a multiple of
  1/20, so the exact value is always a multiple of 1/2; the float result
  stays within 2e-13 of it, hence `round(total, 1)` lands on the exact
  rational value (the argument is never a tie at the second decimal).  The
  rational embedding therefore computes exactly what the Python code
  returns.
* Fallible code (a Python `try`/`except`, or a call into `int(...)` that
  may raise) becomes `Option`/`Except`.
-/

namespace RepoBot

/-- Embeds `_type_score` from `src/analyzer.py`: fixed lookup with default 5. -/
def type_score (pr_type : String) : Int :=
  if pr_type = "feat" then 10
  else if pr_type = "opt" then 8
  else if pr_type = "fix" then 6
  else if pr_type = "test" then 4
  else if pr_type = "docs" then 5
  else 5

/-- Embeds `_size_category_and_score` from `src/analyzer.py`. -/
def size_category_and_score (additions deletions : Int) : String × Int :=
  let lines := additions + deletions
  if lines < 50 then ("small", 5)
  else if lines ≤ 200 then ("medium", 7)
  else ("large", 9)

/-- Embeds `_priority` from `src/analyzer.py`. -/
def priority (pr_type : String) : String :=
  if pr_type = "feat" then "P1"
  else if pr_type = "opt" then "P2"
  else if pr_type = "fix" ∨ pr_type = "docs" then "P3"
  else if pr_type = "test" then "P4"
  else "P3"

/-- Embeds `_calc_total_score` from `src/analyzer.py`: each score is put on a
0-100 scale and weighted (type 0.05, size 0.05, the six dimensions 0.15
each), then the sum is rounded to one decimal place. -/
def calc_total_score (ts ss cq tc dm cs mh col : Int) : ℚ :=
  let total : ℚ :=
    (ts : ℚ) * 10 * (5 / 100) + (ss : ℚ) * 10 * (5 / 100)
    + (cq : ℚ) * 10 * (15 / 100) + (tc : ℚ) * 10 * (15 / 100)
    + (dm : ℚ) * 10 * (15 / 100) + (cs : ℚ) * 10 * (15 / 100)
    + (mh : ℚ) * 10 * (15 / 100) + (col : ℚ) * 10 * (15 / 100)
  (round (total * 10) : ℚ) / 10

/-- The weighted sum exactly as the specification words it, before rounding:
each of the eight inputs multiplied by 10 and then by its weight. -/
def weighted_sum_spec (ts ss cq tc dm cs mh col : Int) : ℚ :=
  (ts : ℚ) * 10 * (5 / 100) + (ss : ℚ) * 10 * (5 / 100)
  + (cq : ℚ) * 10 * (15 / 100) + (tc : ℚ) * 10 * (15 / 100)
  + (dm : ℚ) * 10 * (15 / 100) + (cs : ℚ) * 10 * (15 / 100)
  + (mh : ℚ) * 10 * (15 / 100) + (col : ℚ) * 10 * (15 / 100)

/-- Rounding to one decimal place, as the specification words it. -/
def round_to_one_decimal (q : ℚ) : ℚ :=
  (round (q * 10) : ℚ) / 10

/-- Embeds `_rating` from `src/analyzer.py`.  The three Chinese strings are
the excellent / good / fair tiers of the specification. -/
def rating (total_score : ℚ) : String :=
  if total_score > 80 then "优秀"
  else if total_score > 60 then "良好"
  else "一般"

lemma calc_total_score_eq_int (ts ss cq tc dm cs mh col : Int) :
    calc_total_score ts ss cq tc dm cs mh col
      = ((5 * ts + 5 * ss + 15 * (cq + tc + dm + cs + mh + col) : Int) : ℚ) / 10 := by
  have h : ((ts : ℚ) * 10 * (5 / 100) + (ss : ℚ) * 10 * (5 / 100)
      + (cq : ℚ) * 10 * (15 / 100) + (tc : ℚ) * 10 * (15 / 100)
      + (dm : ℚ) * 10 * (15 / 100) + (cs : ℚ) * 10 * (15 / 100)
      + (mh : ℚ) * 10 * (15 / 100) + (col : ℚ) * 10 * (15 / 100)) * 10
      = ((5 * ts + 5 * ss + 15 * (cq + tc + dm + cs + mh + col) : Int) : ℚ) := by
    push_cast
    ring
  simp only [calc_total_score]
  rw [h, round_intCast]

/-- C1: with both heuristic scores and all six dimension scores in [0, 10],
the composite score equals the documented weighted sum rounded to one
decimal place and always lies in [0, 100]. -/
theorem total_score_weighted_sum_and_range
    (ts ss cq tc dm cs mh col : Int)
    (hts : 0 ≤ ts ∧ ts ≤ 10) (hss : 0 ≤ ss ∧ ss ≤ 10)
    (hcq : 0 ≤ cq ∧ cq ≤ 10) (htc : 0 ≤ tc ∧ tc ≤ 10)
    (hdm : 0 ≤ dm ∧ dm ≤ 10) (hcs : 0 ≤ cs ∧ cs ≤ 10)
    (hmh : 0 ≤ mh ∧ mh ≤ 10) (hcol : 0 ≤ col ∧ col ≤ 10) :
    calc_total_score ts ss cq tc dm cs mh col
      = round_to_one_decimal (weighted_sum_spec ts ss cq tc dm cs mh col)
    ∧ 0 ≤ calc_total_score ts ss cq tc dm cs mh col
    ∧ calc_total_score ts ss cq tc dm cs mh col ≤ 100 := by
  refine ⟨rfl, ?_, ?_⟩
  · rw [calc_total_score_eq_int]
    have h1 : (0 : Int) ≤ 5 * ts + 5 * ss + 15 * (cq + tc + dm + cs + mh + col) := by
      nlinarith [hts.1, hss.1, hcq.1, htc.1, hdm.1, hcs.1, hmh.1, hcol.1]
    have h2 : (0 : ℚ) ≤ ((5 * ts + 5 * ss + 15 * (cq + tc + dm + cs + mh + col) : Int) : ℚ) := by
      exact_mod_cast h1
    positivity
  · rw [calc_total_score_eq_int]
    have h1 : 5 * ts + 5 * ss + 15 * (cq + tc + dm + cs + mh + col) ≤ (1000 : Int) := by
      nlinarith [hts.2, hss.2, hcq.2, htc.2, hdm.2, hcs.2, hmh.2, hcol.2]
    have h2 : ((5 * ts + 5 * ss + 15 * (cq + tc + dm + cs + mh + col) : Int) : ℚ) ≤ 1000 := by
      exact_mod_cast h1
    linarith [h2]

/-- Witness for C1 at the specification's own end-to-end example:
type 10, size 9, all six dimensions 7 give a composite score in range. -/
theorem total_score_weighted_sum_and_range_witness :
    calc_total_score 10 9 7 7 7 7 7 7
      = round_to_one_decimal (weighted_sum_spec 10 9 7 7 7 7 7 7)
    ∧ 0 ≤ calc_total_score 10 9 7 7 7 7 7 7
    ∧ calc_total_score 10 9 7 7 7 7 7 7 ≤ 100 :=
  total_score_weighted_sum_and_range 10 9 7 7 7 7 7 7
    (by decide) (by decide) (by decide) (by decide)
    (by decide) (by decide) (by decide) (by decide)

/-- C2: the rating tiers use a strict greater-than on each upper bound:
excellent iff the score exceeds 80, good iff it is in (60, 80], fair iff it
is at most 60; in particular 80 rates good and 60 rates fair. -/
theorem rating_tiers (q : ℚ) :
    (rating q = "优秀" ↔ 80 < q)
    ∧ (rating q = "良好" ↔ 60 < q ∧ q ≤ 80)
    ∧ (rating q = "一般" ↔ q ≤ 60)
    ∧ rating (80 : ℚ) = "良好" ∧ rating (60 : ℚ) = "一般" := by
  refine ⟨?_, ?_, ?_, ?_, ?_⟩
  · unfold rating
    split_ifs with h1 h2
    · simpa using h1
    · simp only [String.reduceEq, false_iff]
      exact fun h => absurd h h1
    · simp only [String.reduceEq, false_iff]
      exact fun h => absurd h h1
  · unfold rating
    split_ifs with h1 h2
    · simp only [String.reduceEq, false_iff]
      intro h
      exact absurd h1 (not_lt.mpr h.2)
    · simp only [true_iff]
      exact ⟨h2, not_lt.mp h1⟩
    · simp only [String.reduceEq, false_iff]
      intro h
      exact absurd h.1 h2
  · unfold rating
    split_ifs with h1 h2
    · simp only [String.reduceEq, false_iff]
      intro h
      exact absurd h1 (not_lt.mpr (h.trans (by norm_num)))
    · simp only [String.reduceEq, false_iff]
      intro h
      exact absurd h2 (not_lt.mpr h)
    · simp only [true_iff]
      exact not_lt.mp h2
  · unfold rating
    norm_num
  · unfold rating
    norm_num

/-- C3: the size classifier on non-negative additions and deletions:
below 50 total lines it is (small, 5), from 50 to 200 inclusive it is
(medium, 7), above 200 it is (large, 9). -/
theorem size_category_buckets (a d : Int) (ha : 0 ≤ a) (hd : 0 ≤ d) :
    (a + d < 50 → size_category_and_score a d = ("small", 5))
    ∧ (50 ≤ a + d ∧ a + d ≤ 200 → size_category_and_score a d = ("medium", 7))
    ∧ (200 < a + d → size_category_and_score a d = ("large", 9)) := by
  refine ⟨?_, ?_, ?_⟩
  · intro h
    unfold size_category_and_score
    simp [h]
  · intro h
    unfold size_category_and_score
    rw [if_neg (by omega), if_pos (by omega)]
  · intro h
    unfold size_category_and_score
    rw [if_neg (by omega), if_neg (by omega)]

/-- Witness for C3 at the boundary-revealing inputs 30+10, 100+100 and
150+100 total changed lines. -/
theorem size_category_buckets_witness :
    size_category_and_score 30 10 = ("small", 5)
    ∧ size_category_and_score 100 100 = ("medium", 7)
    ∧ size_category_and_score 150 100 = ("large", 9) :=
  ⟨(size_category_buckets 30 10 (by decide) (by decide)).1 (by decide),
   (size_category_buckets 100 100 (by decide) (by decide)).2.1 (by decide),
   (size_category_buckets 150 100 (by decide) (by decide)).2.2 (by decide)⟩

/-!
Embedding of the reference-sanitizer, the function named clean_references in
src/analyzer.py.  It applies six regex substitutions in order; we embed each
substitution as a character-list transformer, operating on the ASCII
fragment of the Python character classes (the classes of the regex escapes
for word characters, digits and whitespace are Unicode-aware in Python, but
every pattern, every replacement and every claim input is ASCII).
-/

/-- ASCII fragment of the Python regex word-character class: letters,
digits and underscore. -/
def isWordChar (c : Char) : Bool := c.isAlphanum || c = '_'

/-- ASCII fragment of the Python regex whitespace class. -/
def isPySpace (c : Char) : Bool :=
  c = ' ' || c = '\t' || c = '\n' || c = '\r' || c = '\x0b' || c = '\x0c'

/-- Whether a character list starts with an ASCII digit. -/
def headIsDigit : List Char → Bool
  | d :: _ => d.isDigit
  | [] => false

/-- Whether a character list starts with a Python whitespace character. -/
def headIsSpace : List Char → Bool
  | c :: _ => isPySpace c
  | [] => false

/- First substitution of clean_references: word-run, then hash, then digits
becomes word-run, dash, digits.  Since the replacement keeps the word run
and the digit run and only turns the hash into a dash, the left-to-right
scan-and-consume semantics of the Python substitution reduces to: a hash is
replaced exactly when a digit follows it and an unconsumed word character
precedes it, where the digit run of a replaced hash is consumed.  sub1Go
carries whether the previous character is an unconsumed word character, and
sub1Dig copies the consumed digit run of a replaced hash. -/
mutual

/-- Main scanning pass of the first substitution of clean_references. -/
def sub1Go : Bool → List Char → List Char
  | _, [] => []
  | prevWord, c :: rest =>
    if c = '#' && prevWord && headIsDigit rest then '-' :: sub1Dig rest
    else c :: sub1Go (isWordChar c) rest

/-- Digit-run copier of the first substitution of clean_references. -/
def sub1Dig : List Char → List Char
  | [] => []
  | c :: rest =>
    if c.isDigit then c :: sub1Dig rest
    else c :: sub1Go (isWordChar c) rest

end

/-- The first substitution, starting with no preceding character. -/
def sub1 (l : List Char) : List Char := sub1Go false l

/-- Second substitution of clean_references: hash followed by digits becomes
the word Item, a dash and the digits.  The greedy digit consumption of the
Python substitution has no observable effect here (no match can begin
inside a digit run, because every match begins with a hash), so the scan is
a plain character-by-character pass. -/
def sub2 : List Char → List Char
  | [] => []
  | c :: rest =>
    if c = '#' && headIsDigit rest then
      'I' :: 't' :: 'e' :: 'm' :: '-' :: sub2 rest
    else c :: sub2 rest

/-- Case-insensitive match of a fixed lowercase keyword against the front
of the input; returns the remainder on success. -/
def matchKw : List Char → List Char → Option (List Char)
  | [], l => some l
  | _ :: _, [] => none
  | k :: ks, c :: cs => if c.toLower = k then matchKw ks cs else none

/-- A token of the case-insensitive patterns three to six of
clean_references: a fixed keyword or a nonempty whitespace run. -/
inductive PatTok where
  | kw : List Char → PatTok
  | ws : PatTok
deriving DecidableEq

/-- Match a token sequence (keyword and whitespace-run tokens) against the
front of the input.  Whitespace runs are taken greedily, which agrees with
the regex because no keyword of these patterns begins with whitespace and
the hash that always follows is not whitespace. -/
def matchToks : List PatTok → List Char → Option (List Char)
  | [], l => some l
  | PatTok.kw s :: ps, l =>
    match matchKw s l with
    | some r => matchToks ps r
    | none => none
  | PatTok.ws :: ps, l =>
    if headIsSpace l then matchToks ps (List.dropWhile isPySpace l) else none

lemma matchKw_suffix : ∀ ks l r, matchKw ks l = some r → r <:+ l := by
  intro ks
  induction ks with
  | nil =>
    intro l r h
    simp [matchKw] at h
    exact h ▸ List.suffix_refl l
  | cons k ks ih =>
    intro l r h
    cases l with
    | nil => simp [matchKw] at h
    | cons c cs =>
      simp only [matchKw] at h
      by_cases hc : c.toLower = k
      · rw [if_pos hc] at h
        exact (ih cs r h).trans (List.suffix_cons c cs)
      · rw [if_neg hc] at h
        exact absurd h (by simp)

lemma matchToks_suffix : ∀ ps l r, matchToks ps l = some r → r <:+ l := by
  intro ps
  induction ps with
  | nil =>
    intro l r h
    simp [matchToks] at h
    exact h ▸ List.suffix_refl l
  | cons p ps ih =>
    intro l r h
    cases p with
    | kw s =>
      simp only [matchToks] at h
      cases hm : matchKw s l with
      | none => rw [hm] at h; exact absurd h (by simp)
      | some r1 =>
        rw [hm] at h
        exact (ih r1 r h).trans (matchKw_suffix s l r1 hm)
    | ws =>
      simp only [matchToks] at h
      by_cases hc : headIsSpace l = true
      · rw [if_pos hc] at h
        exact (ih _ r h).trans (List.dropWhile_suffix isPySpace)
      · rw [if_neg hc] at h
        exact absurd h (by simp)

/-- One of the case-insensitive substitutions three to six of
clean_references: scan left to right; where the token sequence followed by
a hash and at least one digit matches, emit the replacement, a dash and the
digit run, and continue after the digit run; otherwise keep the current
character and continue after it. -/
def subKwPat (ps : List PatTok) (repl : List Char) : List Char → List Char
  | [] => []
  | c :: cs =>
    match hm : matchToks ps (c :: cs) with
    | some r2 =>
      match r2 with
      | x :: r3 =>
        if x = '#' then
          if headIsDigit r3 then
            repl ++ '-' :: List.takeWhile Char.isDigit r3
              ++ subKwPat ps repl (List.dropWhile Char.isDigit r3)
          else c :: subKwPat ps repl cs
        else c :: subKwPat ps repl cs
      | [] => c :: subKwPat ps repl cs
    | none => c :: subKwPat ps repl cs
termination_by l => l.length
decreasing_by
  · have h2 : (List.dropWhile Char.isDigit r3).length ≤ r3.length :=
      (List.dropWhile_suffix Char.isDigit).length_le
    have h1 := (matchToks_suffix _ _ _ hm).length_le
    simp only [List.length_cons] at h1 ⊢
    omega
  all_goals simp only [List.length_cons]; omega

/-- The pattern of substitution three: the keyword issue, whitespace. -/
def pat_issue : List PatTok := [PatTok.kw ['i', 's', 's', 'u', 'e'], PatTok.ws]

/-- The pattern of substitution four: the keyword pr, whitespace. -/
def pat_pr : List PatTok := [PatTok.kw ['p', 'r'], PatTok.ws]

/-- The pattern of substitution five: pull, whitespace, request, whitespace. -/
def pat_pull_request : List PatTok :=
  [PatTok.kw ['p', 'u', 'l', 'l'], PatTok.ws,
   PatTok.kw ['r', 'e', 'q', 'u', 'e', 's', 't'], PatTok.ws]

/-- The pattern of substitution six: the keyword discussion, whitespace. -/
def pat_discussion : List PatTok :=
  [PatTok.kw ['d', 'i', 's', 'c', 'u', 's', 's', 'i', 'o', 'n'], PatTok.ws]

/-- Embeds clean_references from src/analyzer.py on character lists: the six
substitutions applied in source order. -/
def clean_references_chars (l : List Char) : List Char :=
  subKwPat pat_discussion ['D', 'i', 's', 'c', 'u', 's', 's', 'i', 'o', 'n']
    (subKwPat pat_pull_request ['P', 'R']
      (subKwPat pat_pr ['P', 'R']
        (subKwPat pat_issue ['I', 's', 's', 'u', 'e']
          (sub2 (sub1 l)))))

/-- Embeds clean_references from src/analyzer.py on strings. -/
def clean_references (s : String) : String :=
  String.mk (clean_references_chars s.data)

/-- No hash character immediately followed by a digit occurs in the list.
Every pattern of clean_references requires such an adjacent pair to fire. -/
def noHashDigit : List Char → Bool
  | [] => true
  | a :: rest => !(a = '#' && headIsDigit rest) && noHashDigit rest

lemma noHashDigit_cons {a : Char} {l : List Char}
    (h : noHashDigit (a :: l) = true) : noHashDigit l = true := by
  simp only [noHashDigit, Bool.and_eq_true] at h
  exact h.2

lemma noHashDigit_pair {a : Char} {l : List Char}
    (h : noHashDigit (a :: l) = true) : (a = '#' && headIsDigit l) = false := by
  simp only [noHashDigit, Bool.and_eq_true, Bool.not_eq_true'] at h
  exact h.1

lemma noHashDigit_suffix : ∀ {l2 l : List Char}, l2 <:+ l →
    noHashDigit l = true → noHashDigit l2 = true := by
  intro l2 l hs h
  obtain ⟨pre, rfl⟩ := hs
  induction pre with
  | nil => exact h
  | cons a pre ih => exact ih (noHashDigit_cons h)

lemma noHashDigit_append {A B : List Char} (hA : ∀ x ∈ A, x ≠ '#')
    (hB : noHashDigit B = true) : noHashDigit (A ++ B) = true := by
  induction A with
  | nil => exact hB
  | cons a A ih =>
    have ha : a ≠ '#' := hA a (by simp)
    simp only [List.cons_append, noHashDigit, Bool.and_eq_true, Bool.not_eq_true']
    constructor
    · simp [ha]
    · exact ih (fun x hx => hA x (by simp [hx]))

lemma sub2_head_not_digit : ∀ l : List Char, headIsDigit l = false →
    headIsDigit (sub2 l) = false := by
  intro l h
  cases l with
  | nil => simp [sub2, headIsDigit]
  | cons c rest =>
    simp only [headIsDigit] at h
    simp only [sub2]
    by_cases hc : (c = '#' && headIsDigit rest) = true
    · rw [if_pos hc]
      simp [headIsDigit]
    · rw [if_neg hc]
      simp [headIsDigit, h]

/-- The second substitution leaves no hash-digit pair in its output. -/
lemma sub2_noHashDigit : ∀ l : List Char, noHashDigit (sub2 l) = true := by
  intro l
  induction l with
  | nil => simp [sub2, noHashDigit]
  | cons c rest ih =>
    simp only [sub2]
    by_cases hc : (c = '#' && headIsDigit rest) = true
    · rw [if_pos hc]
      have hrest : headIsDigit rest = true := by
        simp only [Bool.and_eq_true] at hc
        exact hc.2
      have : noHashDigit ('-' :: sub2 rest) = true := by
        simp only [noHashDigit, Bool.and_eq_true, Bool.not_eq_true']
        refine ⟨by simp, ih⟩
      simp only [noHashDigit, Bool.and_eq_true, Bool.not_eq_true', headIsDigit]
      refine ⟨by simp, by simp, by simp, by simp, ?_⟩
      simpa [noHashDigit, Bool.and_eq_true, Bool.not_eq_true'] using this
    · rw [if_neg hc]
      simp only [noHashDigit, Bool.and_eq_true, Bool.not_eq_true']
      refine ⟨?_, ih⟩
      by_cases hch : c = '#'
      · subst hch
        have hrest : headIsDigit rest = false := by
          by_contra hcon
          exact hc (by simp [Bool.not_eq_false] at hcon ⊢; exact hcon)
        simp [sub2_head_not_digit rest hrest]
      · simp [hch]

/-- The second substitution is the identity on hash-digit-free input. -/
lemma sub2_id : ∀ l : List Char, noHashDigit l = true → sub2 l = l := by
  intro l
  induction l with
  | nil => simp [sub2]
  | cons c rest ih =>
    intro h
    simp only [sub2]
    rw [if_neg (by simp [noHashDigit_pair h])]
    rw [ih (noHashDigit_cons h)]

/-- The first substitution is the identity on hash-digit-free input. -/
lemma sub1_parts_id : ∀ l : List Char, noHashDigit l = true →
    (∀ prevWord, sub1Go prevWord l = l) ∧ sub1Dig l = l := by
  intro l
  induction l with
  | nil => intro _; exact ⟨fun _ => rfl, rfl⟩
  | cons c rest ih =>
    intro h
    have hrest := noHashDigit_cons h
    have hpair := noHashDigit_pair h
    constructor
    · intro prevWord
      simp only [sub1Go]
      rw [if_neg ?_]
      · rw [(ih hrest).1]
      · intro hcon
        simp only [Bool.and_eq_true] at hcon
        simp only [Bool.and_eq_true, Bool.not_eq_true] at hpair
        rw [Bool.and_eq_false_iff] at hpair
        rcases hpair with h1 | h2
        · exact absurd hcon.1.1 (by simp [h1])
        · exact absurd hcon.2 (by simp [h2])
    · simp only [sub1Dig]
      by_cases hd : c.isDigit
      · rw [if_pos hd, (ih hrest).2]
      · rw [if_neg hd, (ih hrest).1]

/-- Each keyword substitution is the identity on hash-digit-free input. -/
lemma subKwPat_id (ps : List PatTok) (repl : List Char) :
    ∀ l : List Char, noHashDigit l = true → subKwPat ps repl l = l := by
  suffices H : ∀ n, ∀ l : List Char, l.length ≤ n →
      noHashDigit l = true → subKwPat ps repl l = l by
    intro l h
    exact H l.length l le_rfl h
  intro n
  induction n with
  | zero =>
    intro l hl h
    rw [List.length_eq_zero.mp (Nat.le_zero.mp hl)]
    rw [subKwPat]
  | succ n ih =>
    intro l hl h
    cases l with
    | nil => rw [subKwPat]
    | cons c cs =>
      have hcs : cs.length ≤ n := by
        simp only [List.length_cons] at hl
        omega
      rw [subKwPat]
      split
      next r2 hm =>
        split
        next x r3 =>
          have hsuf : (x :: r3) <:+ (c :: cs) := matchToks_suffix ps (c :: cs) (x :: r3) hm
          have hx : noHashDigit (x :: r3) = true := noHashDigit_suffix hsuf h
          by_cases hxh : x = '#'
          · rw [if_pos hxh]
            have hr3 : headIsDigit r3 = false := by
              have hp := noHashDigit_pair hx
              rw [Bool.and_eq_false_iff] at hp
              rcases hp with h1 | h2
              · exact absurd hxh (by simpa using h1)
              · exact h2
            rw [if_neg (by simp [hr3])]
            rw [ih cs hcs (noHashDigit_cons h)]
          · rw [if_neg hxh]
            rw [ih cs hcs (noHashDigit_cons h)]
        next =>
          rw [ih cs hcs (noHashDigit_cons h)]
      next hm =>
        rw [ih cs hcs (noHashDigit_cons h)]

/-- After the first two substitutions the remaining four never fire. -/
lemma clean_references_chars_eq (l : List Char) :
    clean_references_chars l = sub2 (sub1 l) := by
  have h2 := sub2_noHashDigit (sub1 l)
  unfold clean_references_chars
  rw [subKwPat_id pat_issue _ _ h2, subKwPat_id pat_pr _ _ h2,
    subKwPat_id pat_pull_request _ _ h2, subKwPat_id pat_discussion _ _ h2]

/-- Counterexample to C5: the generic Item rewrite fires before the
issue-specific rewrite, so an issue shorthand does not become the
documented Issue token. -/
theorem clean_references_issue_counterexample :
    clean_references "issue #123" = "issue Item-123"
    ∧ "issue Item-123" ≠ "Issue-123" := by
  constructor
  · show String.mk (clean_references_chars (String.data "issue #123")) = "issue Item-123"
    rw [clean_references_chars_eq]
    rfl
  · decide

/-- C5 as amended: the two generic rewrites are applied first and consume
every hash-digit pair, so the four specific rewrites never change anything;
hence owner/repo#123 keeps its slash as owner/repo-123, the prefixed forms
issue #123, pr #123, pull request #123 and discussion #123 all get the
generic Item token, and the documented example still holds. -/
theorem clean_references_behaviour :
    (∀ s : String, clean_references s = String.mk (sub2 (sub1 s.data)))
    ∧ clean_references "Fixes apache#123 and #45" = "Fixes apache-123 and Item-45"
    ∧ clean_references "owner/repo#123" = "owner/repo-123"
    ∧ clean_references "issue #45" = "issue Item-45"
    ∧ clean_references "pr #45" = "pr Item-45"
    ∧ clean_references "pull request #45" = "pull request Item-45"
    ∧ clean_references "discussion #45" = "discussion Item-45" := by
  have key : ∀ s : String, clean_references s = String.mk (sub2 (sub1 s.data)) := by
    intro s
    show String.mk (clean_references_chars s.data) = _
    rw [clean_references_chars_eq]
  refine ⟨key, ?_, ?_, ?_, ?_, ?_, ?_⟩
  · rw [key]; rfl
  · rw [key]; rfl
  · rw [key]; rfl
  · rw [key]; rfl
  · rw [key]; rfl
  · rw [key]; rfl

/-- The first substitution never emits a hash that the input did not have:
needed nowhere, the idempotence argument only uses the second pass. -/
lemma sub1_id_of_noHashDigit (l : List Char) (h : noHashDigit l = true) :
    sub1 l = l :=
  (sub1_parts_id l h).1 false

/-- C10: clean_references is idempotent.  One application removes every
hash followed by digits and no replacement reintroduces such a pair, so a
second application changes nothing. -/
theorem clean_references_idempotent (s : String) :
    clean_references (clean_references s) = clean_references s := by
  have key : ∀ t : String, clean_references t = String.mk (sub2 (sub1 t.data)) := by
    intro t
    show String.mk (clean_references_chars t.data) = _
    rw [clean_references_chars_eq]
  rw [key s, key ⟨sub2 (sub1 s.data)⟩]
  have h2 := sub2_noHashDigit (sub1 s.data)
  show String.mk (sub2 (sub1 (sub2 (sub1 s.data)))) = _
  rw [sub1_id_of_noHashDigit _ h2, sub2_id _ h2]

/-!
Embedding of the JSON-ish value domain the pipeline passes around for the
externally supplied dimension scores, together with the Python coercions
int(...) and str(...) on it.  int(...) is partial: it raises on a
non-numeric string and on null, which the embedding renders as Except.
-/

/-- A dynamically typed value as delivered by the external scorer. -/
inductive PyVal where
  | vint : Int → PyVal
  | vstr : String → PyVal
  | vbool : Bool → PyVal
  | vnull : PyVal
deriving DecidableEq, Repr

/-- Numeric value of a nonempty ASCII digit run. -/
def digitsVal (l : List Char) : Int :=
  l.foldl (fun a c => a * 10 + ((c.toNat : Int) - 48)) 0

/-- The strings accepted by the Python integer constructor: optional
whitespace, an optional sign, then at least one digit (ASCII fragment). -/
def parseIntChars (l : List Char) : Option Int :=
  let t := ((l.dropWhile isPySpace).reverse.dropWhile isPySpace).reverse
  match t with
  | '+' :: ds =>
    if ds ≠ [] ∧ ds.all Char.isDigit then some (digitsVal ds) else none
  | '-' :: ds =>
    if ds ≠ [] ∧ ds.all Char.isDigit then some (-(digitsVal ds)) else none
  | ds =>
    if ds ≠ [] ∧ ds.all Char.isDigit then some (digitsVal ds) else none

/-- The Python integer coercion int(...): integers pass through, booleans
become 0 or 1, numeric strings are parsed, anything else raises. -/
def pyInt : PyVal → Except String Int
  | PyVal.vint n => Except.ok n
  | PyVal.vbool b => Except.ok (if b then 1 else 0)
  | PyVal.vstr s =>
    match parseIntChars s.data with
    | some n => Except.ok n
    | none => Except.error ("invalid literal for int() with base 10: " ++ s)
  | PyVal.vnull => Except.error "int() argument must be a string or a number, not NoneType"

/-- The Python string coercion str(...), which never raises. -/
def pyStr : PyVal → String
  | PyVal.vint n => toString n
  | PyVal.vstr s => s
  | PyVal.vbool b => if b then "True" else "False"
  | PyVal.vnull => "None"

/-- Python string slicing from the front, by code point. -/
def pyTake (n : Nat) (s : String) : String := String.mk (s.data.take n)

/-- The result mapping returned by the external PR scorer: the six
dimension-score entries and the comment entry, each possibly absent. -/
structure QwenDict where
  code_quality_score : Option PyVal := none
  test_coverage_score : Option PyVal := none
  doc_maintain_score : Option PyVal := none
  compliance_security_score : Option PyVal := none
  merge_history_score : Option PyVal := none
  collaboration_score : Option PyVal := none
  comment : Option PyVal := none
deriving DecidableEq, Repr

/-- The result mapping returned by the external discussion and issue
summarizers. -/
structure SummaryDict where
  summary : Option PyVal := none
deriving DecidableEq, Repr

/-- Outcome of the external network call wrapped in the Python try block:
either the parsed response body, or the message of the raised exception.
The whole requests.post / raise_for_status / json.loads sequence of
src/qwen_client.py sits inside one try, so one outcome value covers it. -/
inductive CallOutcome (α : Type) where
  | success : α → CallOutcome α
  | failure : String → CallOutcome α
deriving DecidableEq

namespace QwenClient

/-- The all-zero placeholder of QwenClient.analyze_pr with a given comment. -/
def pr_placeholder (c : String) : QwenDict :=
  { code_quality_score := some (PyVal.vint 0)
    test_coverage_score := some (PyVal.vint 0)
    doc_maintain_score := some (PyVal.vint 0)
    compliance_security_score := some (PyVal.vint 0)
    merge_history_score := some (PyVal.vint 0)
    collaboration_score := some (PyVal.vint 0)
    comment := some (PyVal.vstr c) }

/-- Embeds QwenClient.analyze_pr from src/qwen_client.py.  The returned
boolean records whether the network call was made.  An empty api_key is
the Python falsy check; the function is total, so no path raises. -/
def analyze_pr (api_key : String) (outcome : CallOutcome QwenDict) :
    QwenDict × Bool :=
  if api_key = "" then
    (pr_placeholder "Qwen API key 未配置，未实际调用模型。", false)
  else
    match outcome with
    | CallOutcome.success d => (d, true)
    | CallOutcome.failure exc => (pr_placeholder ("调用 Qwen 失败：" ++ exc), true)

/-- Embeds QwenClient.analyze_discussion from src/qwen_client.py. -/
def analyze_discussion (api_key : String) (outcome : CallOutcome SummaryDict) :
    SummaryDict × Bool :=
  if api_key = "" then
    ({ summary := some (PyVal.vstr "Qwen API key 未配置，未实际调用模型。") }, false)
  else
    match outcome with
    | CallOutcome.success d => (d, true)
    | CallOutcome.failure exc =>
      ({ summary := some (PyVal.vstr ("调用 Qwen 失败：" ++ exc)) }, true)

/-- Embeds QwenClient.analyze_issue_summary from src/qwen_client.py: both
the missing-key branch and the exception branch return an empty summary. -/
def analyze_issue_summary (api_key : String) (outcome : CallOutcome SummaryDict) :
    SummaryDict × Bool :=
  if api_key = "" then
    ({ summary := some (PyVal.vstr "") }, false)
  else
    match outcome with
    | CallOutcome.success d => (d, true)
    | CallOutcome.failure _ => ({ summary := some (PyVal.vstr "") }, true)

end QwenClient

/-- Substring containment, the Python infix operator on strings. -/
def str_contains (hay needle : String) : Bool :=
  hay.data.tails.any (fun t => needle.data.isPrefixOf t)

/-- Counterexample to C9: on a call failure, analyze_issue_summary returns
an empty summary which does not carry the failure reason. -/
theorem analyze_issue_summary_counterexample :
    (QwenClient.analyze_issue_summary "key" (CallOutcome.failure "boom")).1.summary
      = some (PyVal.vstr "")
    ∧ str_contains "" "boom" = false := by
  exact ⟨rfl, rfl⟩

/-- C9 as amended: all three scorer operations are total (no path raises);
with no API key each returns its deterministic placeholder without a
network call; on a call failure analyze_pr and analyze_discussion return a
placeholder carrying the failure reason, while analyze_issue_summary
returns an empty summary that does not carry the reason. -/
theorem qwen_client_degrades (api_key : String) (o1 : CallOutcome QwenDict)
    (o2 o3 : CallOutcome SummaryDict) :
    (api_key = "" →
      QwenClient.analyze_pr api_key o1
        = (QwenClient.pr_placeholder "Qwen API key 未配置，未实际调用模型。", false)
      ∧ QwenClient.analyze_discussion api_key o2
        = ({ summary := some (PyVal.vstr "Qwen API key 未配置，未实际调用模型。") }, false)
      ∧ QwenClient.analyze_issue_summary api_key o3
        = ({ summary := some (PyVal.vstr "") }, false))
    ∧ (∀ exc, api_key ≠ "" → o1 = CallOutcome.failure exc →
        (QwenClient.analyze_pr api_key o1).1
          = QwenClient.pr_placeholder ("调用 Qwen 失败：" ++ exc))
    ∧ (∀ exc, api_key ≠ "" → o2 = CallOutcome.failure exc →
        (QwenClient.analyze_discussion api_key o2).1.summary
          = some (PyVal.vstr ("调用 Qwen 失败：" ++ exc)))
    ∧ (∀ exc, api_key ≠ "" → o3 = CallOutcome.failure exc →
        (QwenClient.analyze_issue_summary api_key o3).1.summary
          = some (PyVal.vstr "")) := by
  refine ⟨?_, ?_, ?_, ?_⟩
  · intro hk
    subst hk
    exact ⟨rfl, rfl, rfl⟩
  · intro exc hk ho
    subst ho
    simp [QwenClient.analyze_pr, hk]
  · intro exc hk ho
    subst ho
    simp [QwenClient.analyze_discussion, hk]
  · intro exc hk ho
    subst ho
    simp [QwenClient.analyze_issue_summary, hk]

/-- Witness for C9 as amended, at an empty key and at a failing call. -/
theorem qwen_client_degrades_witness :
    QwenClient.analyze_pr "" (CallOutcome.failure "x")
      = (QwenClient.pr_placeholder "Qwen API key 未配置，未实际调用模型。", false)
    ∧ (QwenClient.analyze_pr "k" (CallOutcome.failure "boom")).1
      = QwenClient.pr_placeholder "调用 Qwen 失败：boom" :=
  ⟨((qwen_client_degrades "" (CallOutcome.failure "x") (CallOutcome.failure "x")
      (CallOutcome.failure "x")).1 rfl).1,
   ((qwen_client_degrades "k" (CallOutcome.failure "boom") (CallOutcome.failure "x")
      (CallOutcome.failure "x")).2.1 "boom" (by decide) rfl)⟩

/-!
Embedding of the analysis assembler for pull requests, the function named
analyze_pull_requests in src/analyzer.py, together with the classifier
detect_pr_type it uses.  Record fields are Options: none stands for an
absent or null field, and the Python .get(key, default) plus or-default
idiom collapses to Option.getD.
-/

/-- Lower-casing, ASCII fragment of the Python str.lower method. -/
def lowerStr (s : String) : String := String.mk (s.data.map Char.toLower)

/-- Space-joining of label names, the Python str.join call. -/
def joinSpace (ls : List String) : String :=
  String.mk (List.flatten (List.intersperse [' '] (ls.map String.data)))

/-- Embeds the function named detect_pr_type in src/analyzer.py: a
precedence cascade of case-insensitive substring tests over the combined
title and body text and over the joined label names. -/
def detect_pr_type (title body : String) (labels : List String) : String :=
  let text := lowerStr (title ++ "\n" ++ body)
  let label_text := lowerStr (joinSpace labels)
  if str_contains text "feat" || str_contains text "feature"
      || str_contains label_text "enhancement" then "feat"
  else if str_contains text "fix" || str_contains label_text "bug" then "fix"
  else if str_contains text "refactor" || str_contains text "opt"
      || str_contains text "optimization" then "opt"
  else if str_contains label_text "test" || str_contains text "test" then "test"
  else if str_contains label_text "doc" || str_contains text "docs" then "docs"
  else "other"

/-- A raw pull-request record as consumed by analyze_pull_requests; each
field is the corresponding dictionary entry, none when absent or null. -/
structure PRRecord where
  number : Option Int := none
  title : Option String := none
  body : Option String := none
  state : Option String := none
  labels : List (Option String) := []
  created_at : Option String := none
  merged_at : Option String := none
  user_login : Option String := none
  changed_files : Option Int := none
  additions : Option Int := none
  deletions : Option Int := none
  commits : Option Int := none
deriving DecidableEq, Repr

/-- The immutable analysis record assembled per pull request, the dataclass
named PRAnalysis in src/analyzer.py. -/
structure PRAnalysis where
  number : Int
  title : String
  state : String
  labels : List String
  created_at : String
  merged_at : Option String
  author : String
  changed_files : Int
  additions : Int
  deletions : Int
  commits : Int
  pr_type : String
  size_category : String
  priority : String
  type_score : Int
  size_score : Int
  code_quality_score : Int
  test_coverage_score : Int
  doc_maintain_score : Int
  compliance_security_score : Int
  merge_history_score : Int
  collaboration_score : Int
  total_score : ℚ
  rating : String
  qwen_comment : String
deriving DecidableEq, Repr

/-- The coercion the assembler applies to one dimension entry: a missing
entry defaults to the integer 0, a present entry goes through int(...). -/
def dim_score : Option PyVal → Except String Int
  | none => Except.ok 0
  | some v => pyInt v

/-- Embeds the loop body of analyze_pull_requests in src/analyzer.py for a
single raw record and its already looked-up score mapping. -/
def analyze_one_pr (pr : PRRecord) (qwen_data : QwenDict) :
    Except String PRAnalysis := do
  let labels := pr.labels.map (fun o => o.getD "")
  let prtype := detect_pr_type (pr.title.getD "") (pr.body.getD "") labels
  let ts := type_score prtype
  let sizes := size_category_and_score (pr.additions.getD 0) (pr.deletions.getD 0)
  let prio := priority prtype
  let cq ← dim_score qwen_data.code_quality_score
  let tc ← dim_score qwen_data.test_coverage_score
  let dm ← dim_score qwen_data.doc_maintain_score
  let csec ← dim_score qwen_data.compliance_security_score
  let mh ← dim_score qwen_data.merge_history_score
  let col ← dim_score qwen_data.collaboration_score
  let com := pyTake 500 (pyStr (qwen_data.comment.getD (PyVal.vstr "")))
  let total := calc_total_score ts sizes.2 cq tc dm csec mh col
  return { number := pr.number.getD 0
           title := pr.title.getD ""
           state := pr.state.getD ""
           labels := labels
           created_at := pr.created_at.getD ""
           merged_at := pr.merged_at
           author := pr.user_login.getD ""
           changed_files := pr.changed_files.getD 0
           additions := pr.additions.getD 0
           deletions := pr.deletions.getD 0
           commits := pr.commits.getD 0
           pr_type := prtype
           size_category := sizes.1
           priority := prio
           type_score := ts
           size_score := sizes.2
           code_quality_score := cq
           test_coverage_score := tc
           doc_maintain_score := dm
           compliance_security_score := csec
           merge_history_score := mh
           collaboration_score := col
           total_score := total
           rating := rating total
           qwen_comment := com }

/-- Embeds analyze_pull_requests from src/analyzer.py.  The score lookup
by identifier uses the Python .get(number, default) idiom with the empty
mapping as default; a raised int(...) error aborts the whole loop, which
Except.bind models by short-circuiting. -/
def analyze_pull_requests (prs : List PRRecord)
    (qwen_results : Int → Option QwenDict) : Except String (List PRAnalysis) :=
  prs.mapM (fun pr => analyze_one_pr pr ((qwen_results (pr.number.getD 0)).getD {}))

/-- Whether a dimension entry survives the int(...) coercion. -/
def intable (o : Option PyVal) : Bool :=
  match dim_score o with
  | Except.ok _ => true
  | Except.error _ => false

/-- Whether every dimension entry of a score mapping is missing or numeric. -/
def numeric_dims (d : QwenDict) : Bool :=
  intable d.code_quality_score && intable d.test_coverage_score
  && intable d.doc_maintain_score && intable d.compliance_security_score
  && intable d.merge_history_score && intable d.collaboration_score

/-- A concrete raw record and score mapping on which the assembler raises. -/
def sample_pr : PRRecord := { number := some 1, title := some "feat: add caching" }

/-- A score mapping with one non-numeric entry. -/
def bad_qwen : QwenDict := { code_quality_score := some (PyVal.vstr "high") }

/-- Counterexample to C4: a non-numeric dimension score does not default to
0; the int(...) coercion raises and no analysis record is produced. -/
theorem analyze_pull_requests_counterexample :
    analyze_pull_requests [sample_pr] (fun _ => some bad_qwen)
      = Except.error "invalid literal for int() with base 10: high" := by
  rfl

lemma analyze_one_pr_ok (pr : PRRecord) (qd : QwenDict)
    (h : numeric_dims qd = true) : ∃ r, analyze_one_pr pr qd = Except.ok r := by
  simp only [numeric_dims, Bool.and_eq_true, intable] at h
  obtain ⟨⟨⟨⟨⟨h1, h2⟩, h3⟩, h4⟩, h5⟩, h6⟩ := h
  cases e1 : dim_score qd.code_quality_score with
  | error _ => rw [e1] at h1; exact absurd h1 (by simp)
  | ok v1 =>
  cases e2 : dim_score qd.test_coverage_score with
  | error _ => rw [e2] at h2; exact absurd h2 (by simp)
  | ok v2 =>
  cases e3 : dim_score qd.doc_maintain_score with
  | error _ => rw [e3] at h3; exact absurd h3 (by simp)
  | ok v3 =>
  cases e4 : dim_score qd.compliance_security_score with
  | error _ => rw [e4] at h4; exact absurd h4 (by simp)
  | ok v4 =>
  cases e5 : dim_score qd.merge_history_score with
  | error _ => rw [e5] at h5; exact absurd h5 (by simp)
  | ok v5 =>
  cases e6 : dim_score qd.collaboration_score with
  | error _ => rw [e6] at h6; exact absurd h6 (by simp)
  | ok v6 =>
  cases hres : analyze_one_pr pr qd with
  | ok r => exact ⟨r, rfl⟩
  | error e =>
    exfalso
    unfold analyze_one_pr at hres
    rw [e1, e2, e3, e4, e5, e6] at hres
    simp [bind, Except.bind, pure, Except.pure] at hres

lemma mapM_except_length {α β : Type} (f : α → Except String β) :
    ∀ (l : List α) (out : List β), l.mapM f = Except.ok out → out.length = l.length := by
  intro l
  induction l with
  | nil =>
    intro out h
    simp only [List.mapM_nil, pure, Except.pure] at h
    cases h
    rfl
  | cons a l ih =>
    intro out h
    simp only [List.mapM_cons, bind, Except.bind, pure, Except.pure] at h
    cases ha : f a with
    | error e => rw [ha] at h; exact absurd h (by simp)
    | ok b =>
      rw [ha] at h
      cases hl : l.mapM f with
      | error e => rw [hl] at h; exact absurd h (by simp)
      | ok rest =>
        rw [hl] at h
        cases h
        simp [ih rest hl]

/-- C4 as amended: whenever every supplied dimension entry is missing or
numeric, the assembler produces exactly one analysis record per raw record
without raising; a missing dimension entry defaults to 0 in the produced
record; but a non-numeric entry makes the int(...) coercion raise, so the
untrusted input is not defaulted in that case. -/
theorem analyze_pull_requests_defaults (prs : List PRRecord)
    (qwen_results : Int → Option QwenDict)
    (h : ∀ pr ∈ prs, numeric_dims ((qwen_results (pr.number.getD 0)).getD {}) = true) :
    (∃ out, analyze_pull_requests prs qwen_results = Except.ok out
      ∧ out.length = prs.length)
    ∧ (∀ pr qd r, analyze_one_pr pr qd = Except.ok r →
        (qd.code_quality_score = none → r.code_quality_score = 0)
        ∧ (qd.test_coverage_score = none → r.test_coverage_score = 0)
        ∧ (qd.doc_maintain_score = none → r.doc_maintain_score = 0)
        ∧ (qd.compliance_security_score = none → r.compliance_security_score = 0)
        ∧ (qd.merge_history_score = none → r.merge_history_score = 0)
        ∧ (qd.collaboration_score = none → r.collaboration_score = 0)) := by
  constructor
  · have hok : ∀ l : List PRRecord, (∀ pr ∈ l,
        numeric_dims ((qwen_results (pr.number.getD 0)).getD {}) = true) →
        ∃ out, l.mapM (fun pr =>
          analyze_one_pr pr ((qwen_results (pr.number.getD 0)).getD {}))
            = Except.ok out := by
      intro l
      induction l with
      | nil => intro _; exact ⟨[], rfl⟩
      | cons a l ih =>
        intro hl
        obtain ⟨r, hr⟩ := analyze_one_pr_ok a _ (hl a (by simp))
        obtain ⟨rest, hrest⟩ := ih (fun pr hpr => hl pr (by simp [hpr]))
        refine ⟨r :: rest, ?_⟩
        rw [List.mapM_cons]
        simp only [bind, Except.bind, hr, hrest, pure, Except.pure]
    obtain ⟨out, hout⟩ := hok prs h
    exact ⟨out, hout, mapM_except_length _ prs out hout⟩
  · intro pr qd r hok
    unfold analyze_one_pr at hok
    cases e1 : dim_score qd.code_quality_score with
    | error _ => rw [e1] at hok; exact absurd hok (by simp [bind, Except.bind])
    | ok v1 =>
    cases e2 : dim_score qd.test_coverage_score with
    | error _ => rw [e1, e2] at hok; exact absurd hok (by simp [bind, Except.bind])
    | ok v2 =>
    cases e3 : dim_score qd.doc_maintain_score with
    | error _ => rw [e1, e2, e3] at hok; exact absurd hok (by simp [bind, Except.bind])
    | ok v3 =>
    cases e4 : dim_score qd.compliance_security_score with
    | error _ =>
      rw [e1, e2, e3, e4] at hok
      exact absurd hok (by simp [bind, Except.bind])
    | ok v4 =>
    cases e5 : dim_score qd.merge_history_score with
    | error _ =>
      rw [e1, e2, e3, e4, e5] at hok
      exact absurd hok (by simp [bind, Except.bind])
    | ok v5 =>
    cases e6 : dim_score qd.collaboration_score with
    | error _ =>
      rw [e1, e2, e3, e4, e5, e6] at hok
      exact absurd hok (by simp [bind, Except.bind])
    | ok v6 =>
      rw [e1, e2, e3, e4, e5, e6] at hok
      simp only [bind, Except.bind, pure, Except.pure, Except.ok.injEq] at hok
      subst hok
      refine ⟨?_, ?_, ?_, ?_, ?_, ?_⟩
      · intro hn; rw [hn] at e1; cases e1; rfl
      · intro hn; rw [hn] at e2; cases e2; rfl
      · intro hn; rw [hn] at e3; cases e3; rfl
      · intro hn; rw [hn] at e4; cases e4; rfl
      · intro hn; rw [hn] at e5; cases e5; rfl
      · intro hn; rw [hn] at e6; cases e6; rfl

/-- Witness for C4 as amended: a record whose score mapping is entirely
missing is assembled with every dimension defaulted. -/
theorem analyze_pull_requests_defaults_witness :
    ∃ out, analyze_pull_requests [sample_pr] (fun _ => none) = Except.ok out
      ∧ out.length = [sample_pr].length :=
  (analyze_pull_requests_defaults [sample_pr] (fun _ => none) (by decide)).1

/-!
Embedding of the time-window partitioner, the issue-filtering block of the
function named main in src/main.py (the discussion block is the same code
on the other record kind).

Timestamps: the Python code calls datetime.fromisoformat after replacing
every Z with a +00:00 offset.  parseIso below models the subset of the
ISO-8601 grammar this pipeline can receive: a calendar date, optionally
followed by a T or space separator, a time of day and an optional
hour-minute offset.  A parsed value carries its instant in seconds and
whether it is offset-aware; comparing an aware with a naive value raises
in Python, which pyLe and pyLt model by returning none, and equality of an
aware with a naive value is False without raising, which pyDtEq models.

Record identity: the Python loop mutates the surviving dictionary by
attaching the _created_in_period key and asks whether the record is a
member of the created list.  For a record taken from the created list the
membership test is true by object identity; for a record taken from the
updated list, any created-list member with an equal value would have an
equal identifier, so the record would already have been deduplicated away
and never tested, except when that identifier is falsy, in which case
neither record survives.  The membership test on a survivor therefore
coincides with value membership in the untagged created list, which is how
dedupTag renders it.
-/

/-- The Python replace call that rewrites every Z into a +00:00 offset. -/
def replaceZ : List Char → List Char
  | [] => []
  | c :: rest =>
    if c = 'Z' then '+' :: '0' :: '0' :: ':' :: '0' :: '0' :: replaceZ rest
    else c :: replaceZ rest

/-- Read exactly n ASCII digits from the front, returning their value and
the remainder. -/
def readNDigits : Nat → List Char → Option (Int × List Char)
  | 0, l => some (0, l)
  | _ + 1, [] => none
  | n + 1, c :: l =>
    if c.isDigit then
      match readNDigits n l with
      | some (v, rest) => some (((c.toNat : Int) - 48) * (10 : Int) ^ n + v, rest)
      | none => none
    else none

/-- Require a given character at the front, returning the remainder. -/
def expectChar (c : Char) : List Char → Option (List Char)
  | x :: l => if x = c then some l else none
  | [] => none

/-- Gregorian leap-year test. -/
def isLeapYear (y : Int) : Bool := (y % 4 = 0 ∧ y % 100 ≠ 0) ∨ y % 400 = 0

/-- Number of days of a month. -/
def daysInMonth (y m : Int) : Int :=
  if m = 2 then (if isLeapYear y then 29 else 28)
  else if m = 4 ∨ m = 6 ∨ m = 9 ∨ m = 11 then 30
  else 31

/-- Days from the civil epoch 1970-01-01 (the standard era-based formula,
written for truncating integer division, which Int division is). -/
def daysFromCivil (y m d : Int) : Int :=
  let y2 := if m ≤ 2 then y - 1 else y
  let era := (if 0 ≤ y2 then y2 else y2 - 399) / 400
  let yoe := y2 - era * 400
  let mp := (m + 9) % 12
  let doy := (153 * mp + 2) / 5 + d - 1
  let doe := yoe * 365 + yoe / 4 - yoe / 100 + doy
  era * 146097 + doe - 719468

/-- A parsed timestamp: its instant in seconds, and whether it carries an
offset (an aware value in Python terms). -/
structure PyDT where
  secs : Int
  aware : Bool
deriving DecidableEq, Repr

/-- Date component of the ISO grammar: year, dash, month, dash, day, with
calendar validation; returns the civil day count and the remainder. -/
def parseDatePart (l : List Char) : Option (Int × List Char) :=
  match readNDigits 4 l with
  | none => none
  | some (y, r1) =>
    match expectChar '-' r1 with
    | none => none
    | some r2 =>
      match readNDigits 2 r2 with
      | none => none
      | some (mo, r3) =>
        match expectChar '-' r3 with
        | none => none
        | some r4 =>
          match readNDigits 2 r4 with
          | none => none
          | some (d, r5) =>
            if 1 ≤ mo ∧ mo ≤ 12 ∧ 1 ≤ d ∧ d ≤ daysInMonth y mo then
              some (daysFromCivil y mo d, r5)
            else none

/-- Time-of-day component of the ISO grammar: hour, minute, second with
colon separators; returns the second count of the day and the remainder. -/
def parseTimeOfDay (r : List Char) : Option (Int × List Char) :=
  match readNDigits 2 r with
  | none => none
  | some (hh, r1) =>
    match expectChar ':' r1 with
    | none => none
    | some r2 =>
      match readNDigits 2 r2 with
      | none => none
      | some (mi, r3) =>
        match expectChar ':' r3 with
        | none => none
        | some r4 =>
          match readNDigits 2 r4 with
          | none => none
          | some (ss, r5) =>
            if hh ≤ 23 ∧ mi ≤ 59 ∧ ss ≤ 59 then
              some (hh * 3600 + mi * 60 + ss, r5)
            else none

/-- Offset component after its sign character: hour, colon, minute,
consuming the whole remainder; returns the signed offset in seconds. -/
def parseOffsetTail (sgn : Char) (r : List Char) : Option Int :=
  match readNDigits 2 r with
  | none => none
  | some (oh, r1) =>
    match expectChar ':' r1 with
    | none => none
    | some r2 =>
      match readNDigits 2 r2 with
      | none => none
      | some (om, r3) =>
        if (oh ≤ 23 ∧ om ≤ 59) ∧ r3 = [] then
          some (if sgn = '+' then oh * 3600 + om * 60 else -(oh * 3600 + om * 60))
        else none

/-- The subset of datetime.fromisoformat this pipeline can receive: a
calendar date, optionally a separator with a time of day, optionally a
sign with an hour-minute offset. -/
def parseIso (l : List Char) : Option PyDT :=
  match parseDatePart l with
  | none => none
  | some (days, r5) =>
    match r5 with
    | [] => some { secs := days * 86400, aware := false }
    | sep :: r6 =>
      if sep = 'T' ∨ sep = ' ' then
        match parseTimeOfDay r6 with
        | none => none
        | some (tod, r11) =>
          match r11 with
          | [] => some { secs := days * 86400 + tod, aware := false }
          | sgn :: r12 =>
            if sgn = '+' ∨ sgn = '-' then
              match parseOffsetTail sgn r12 with
              | none => none
              | some off => some { secs := days * 86400 + tod - off, aware := true }
            else none
      else none

/-- Python ordering comparison of two datetimes: comparing an aware with a
naive value raises, modelled as none. -/
def pyLe (a b : PyDT) : Option Bool :=
  if a.aware = b.aware then some (decide (a.secs ≤ b.secs)) else none

/-- Strict variant of pyLe. -/
def pyLt (a b : PyDT) : Option Bool :=
  if a.aware = b.aware then some (decide (a.secs < b.secs)) else none

/-- Python datetime equality: an aware and a naive value are unequal
without raising. -/
def pyDtEq (a b : PyDT) : Bool := decide (a.aware = b.aware ∧ a.secs = b.secs)

/-- The chained comparison from start to value to end with both bounds
inclusive, with Python short-circuit evaluation. -/
def chainLeLe (a b c : PyDT) : Option Bool :=
  match pyLe a b with
  | none => none
  | some x => if x then pyLe b c else some false

/-- The chained comparison with a strict upper bound. -/
def chainLeLt (a b c : PyDT) : Option Bool :=
  match pyLe a b with
  | none => none
  | some x => if x then pyLt b c else some false

/-- A raw record as the partitioner sees it: the identifier, the two
timestamps (none models an absent or null entry), the rest of the
dictionary collapsed into an opaque payload that still takes part in
dictionary equality, and the _created_in_period entry if present. -/
structure RawRecord where
  number : Option Int := none
  created_at : Option String := none
  updated_at : Option String := none
  payload : String := ""
  tag : Option Bool := none
deriving DecidableEq, Repr

/-- The per-record body of the try block in the filtering loop of
src/main.py lines 139-160: parse the timestamps and compute the pair of
in-period flags; none models both a silently skipped record (absent
created_at) and a swallowed exception (parse failure, or an order
comparison between an aware and a naive datetime). -/
def classify (today : Bool) (ps pe : PyDT) (r : RawRecord) : Option (Bool × Bool) :=
  match r.created_at with
  | none => none
  | some created =>
    if created = "" then none
    else
      match parseIso (replaceZ created.data) with
      | none => none
      | some cd =>
        match (match r.updated_at with
               | some updated =>
                 if updated = "" then some cd else parseIso (replaceZ updated.data)
               | none => some cd) with
        | none => none
        | some ud =>
          match (if today then chainLeLe ps cd pe else chainLeLt ps cd pe) with
          | none => none
          | some ipc =>
            match (if today then chainLeLe ps ud pe else chainLeLt ps ud pe) with
            | none => none
            | some ipu => some (ipc, ipu && !(pyDtEq ud cd))

/-- Whether a record lands in the created bucket. -/
def created_pred (today : Bool) (ps pe : PyDT) (r : RawRecord) : Bool :=
  match classify today ps pe r with
  | some (ipc, _) => ipc
  | none => false

/-- Whether a record lands in the updated bucket: the elif branch, so only
when it did not land in the created bucket. -/
def updated_pred (today : Bool) (ps pe : PyDT) (r : RawRecord) : Bool :=
  match classify today ps pe r with
  | some (ipc, ipu) => !ipc && ipu
  | none => false

/-- The created-in-period list of the partitioner. -/
def created_bucket (today : Bool) (ps pe : PyDT) (rs : List RawRecord) : List RawRecord :=
  rs.filter (created_pred today ps pe)

/-- The updated-in-period list of the partitioner. -/
def updated_bucket (today : Bool) (ps pe : PyDT) (rs : List RawRecord) : List RawRecord :=
  rs.filter (updated_pred today ps pe)

/-- Attaching the _created_in_period entry to a record. -/
def withTag (r : RawRecord) (b : Bool) : RawRecord := { r with tag := some b }

/-- The merge loop of src/main.py lines 163-171: walk the concatenated
created and updated lists, keep the first record of each truthy
identifier, and tag each survivor with its membership in the created
list. -/
def dedupTag (createdL : List RawRecord) : List Int → List RawRecord → List RawRecord
  | _, [] => []
  | seen, r :: rest =>
    match r.number with
    | some n =>
      if n ≠ 0 ∧ n ∉ seen then
        withTag r (decide (r ∈ createdL)) :: dedupTag createdL (n :: seen) rest
      else dedupTag createdL seen rest
    | none => dedupTag createdL seen rest

/-- The whole partitioner: buckets, merge, dedup and tagging. -/
def filter_period (today : Bool) (ps pe : PyDT) (rs : List RawRecord) : List RawRecord :=
  let created := created_bucket today ps pe rs
  let updated := updated_bucket today ps pe rs
  dedupTag created [] (created ++ updated)

/-- The seen-identifier set after the merge loop has walked a list. -/
def seenAfter : List Int → List RawRecord → List Int
  | seen, [] => seen
  | seen, r :: rest =>
    match r.number with
    | some n =>
      if n ≠ 0 ∧ n ∉ seen then seenAfter (n :: seen) rest else seenAfter seen rest
    | none => seenAfter seen rest

lemma filter_period_def (today : Bool) (ps pe : PyDT) (rs : List RawRecord) :
    filter_period today ps pe rs
      = dedupTag (created_bucket today ps pe rs) []
          (created_bucket today ps pe rs ++ updated_bucket today ps pe rs) := rfl

lemma withTag_number (r : RawRecord) (b : Bool) : (withTag r b).number = r.number := rfl

lemma withTag_tag (r : RawRecord) (b : Bool) : (withTag r b).tag = some b := rfl

lemma withTag_self {r : RawRecord} {b : Bool} (h : r.tag = some b) : withTag r b = r := by
  unfold withTag
  rw [← h]

lemma created_pred_withTag (today : Bool) (ps pe : PyDT) (r : RawRecord) (b : Bool) :
    created_pred today ps pe (withTag r b) = created_pred today ps pe r := rfl

lemma updated_pred_withTag (today : Bool) (ps pe : PyDT) (r : RawRecord) (b : Bool) :
    updated_pred today ps pe (withTag r b) = updated_pred today ps pe r := rfl

lemma updated_pred_eq_false_of_created {today : Bool} {ps pe : PyDT} {r : RawRecord}
    (h : created_pred today ps pe r = true) : updated_pred today ps pe r = false := by
  unfold created_pred at h
  unfold updated_pred
  cases hc : classify today ps pe r with
  | none => rfl
  | some p =>
    rw [hc] at h
    obtain ⟨ipc, ipu⟩ := p
    simp only at h
    simp [h]

lemma created_pred_eq_false_of_updated {today : Bool} {ps pe : PyDT} {r : RawRecord}
    (h : updated_pred today ps pe r = true) : created_pred today ps pe r = false := by
  unfold updated_pred at h
  unfold created_pred
  cases hc : classify today ps pe r with
  | none => rfl
  | some p =>
    rw [hc] at h
    obtain ⟨ipc, ipu⟩ := p
    simp only [Bool.and_eq_true, Bool.not_eq_true'] at h
    simp [h.1]

lemma dedupTag_mem_spec (cL : List RawRecord) :
    ∀ (seen : List Int) (l : List RawRecord) (r2 : RawRecord), r2 ∈ dedupTag cL seen l →
      ∃ r ∈ l, ∃ n : Int, r.number = some n ∧ n ≠ 0 ∧ n ∉ seen
        ∧ r2 = withTag r (decide (r ∈ cL)) := by
  intro seen l
  induction l generalizing seen with
  | nil => intro r2 h; simp [dedupTag] at h
  | cons a rest ih =>
    intro r2 h
    cases hn : a.number with
    | none =>
      simp only [dedupTag, hn] at h
      obtain ⟨r, hr, n, hsp⟩ := ih seen r2 h
      exact ⟨r, by simp [hr], n, hsp⟩
    | some n =>
      by_cases hc : n ≠ 0 ∧ n ∉ seen
      · simp only [dedupTag, hn, if_pos hc, List.mem_cons] at h
        rcases h with h | h
        · exact ⟨a, by simp, n, hn, hc.1, hc.2, h⟩
        · obtain ⟨r, hr, m, hm, hm0, hms, hr2⟩ := ih (n :: seen) r2 h
          exact ⟨r, by simp [hr], m, hm, hm0, fun hin => hms (by simp [hin]), hr2⟩
      · simp only [dedupTag, hn, if_neg hc] at h
        obtain ⟨r, hr, m, hsp⟩ := ih seen r2 h
        exact ⟨r, by simp [hr], m, hsp⟩

lemma dedupTag_pairwise (cL : List RawRecord) :
    ∀ (seen : List Int) (l : List RawRecord),
      List.Pairwise (fun a b => a.number ≠ b.number) (dedupTag cL seen l) := by
  intro seen l
  induction l generalizing seen with
  | nil => simp [dedupTag]
  | cons a rest ih =>
    cases hn : a.number with
    | none => simpa only [dedupTag, hn] using ih seen
    | some n =>
      by_cases hc : n ≠ 0 ∧ n ∉ seen
      · simp only [dedupTag, hn, if_pos hc]
        refine List.Pairwise.cons ?_ (ih (n :: seen))
        intro r2 hr2
        obtain ⟨r, _, m, hm, _, hms, rfl⟩ := dedupTag_mem_spec cL (n :: seen) rest r2 hr2
        rw [withTag_number, withTag_number, hn, hm]
        intro hcon
        cases hcon
        exact hms (by simp)
      · simpa only [dedupTag, hn, if_neg hc] using ih seen

lemma dedupTag_mem_of_first (cL : List RawRecord) :
    ∀ (seen : List Int) (l : List RawRecord) (r : RawRecord) (n : Int),
      r ∈ l → r.number = some n → n ≠ 0 → n ∉ seen →
      (∀ r2 ∈ l, r2.number = some n → r2 = r) →
      withTag r (decide (r ∈ cL)) ∈ dedupTag cL seen l := by
  intro seen l
  induction l generalizing seen with
  | nil => intro r n h; simp at h
  | cons a rest ih =>
    intro r n hmem hn hn0 hnseen huniq
    by_cases ha : a = r
    · subst ha
      have hcnd : n ≠ 0 ∧ n ∉ seen := ⟨hn0, hnseen⟩
      simp only [dedupTag, hn, if_pos hcnd]
      exact List.mem_cons_self _ _
    · have hanum : a.number ≠ some n := fun hcon => ha (huniq a (by simp) hcon)
      have hrmem : r ∈ rest := by
        rcases List.mem_cons.mp hmem with h1 | h1
        · exact absurd h1.symm ha
        · exact h1
      have huniq2 : ∀ r2 ∈ rest, r2.number = some n → r2 = r :=
        fun r2 h2 => huniq r2 (by simp [h2])
      cases hna : a.number with
      | none =>
        simp only [dedupTag, hna]
        exact ih seen r n hrmem hn hn0 hnseen huniq2
      | some m =>
        by_cases hcnd : m ≠ 0 ∧ m ∉ seen
        · simp only [dedupTag, hna, if_pos hcnd]
          refine List.mem_cons.mpr (Or.inr ?_)
          refine ih (m :: seen) r n hrmem hn hn0 ?_ huniq2
          intro hin
          rcases List.mem_cons.mp hin with h1 | h1
          · rw [hna, h1] at hanum
            exact hanum rfl
          · exact hnseen h1
        · simp only [dedupTag, hna, if_neg hcnd]
          exact ih seen r n hrmem hn hn0 hnseen huniq2

lemma dedupTag_eq_self (cL : List RawRecord) :
    ∀ (seen : List Int) (l : List RawRecord),
      (∀ r2 ∈ l, ∃ n : Int, r2.number = some n ∧ n ≠ 0 ∧ n ∉ seen) →
      List.Pairwise (fun a b => a.number ≠ b.number) l →
      (∀ r2 ∈ l, r2.tag = some (decide (r2 ∈ cL))) →
      dedupTag cL seen l = l := by
  intro seen l
  induction l generalizing seen with
  | nil => intro _ _ _; rfl
  | cons a rest ih =>
    intro hnum hpw htag
    obtain ⟨n, hn, hn0, hnseen⟩ := hnum a (by simp)
    have hcnd : n ≠ 0 ∧ n ∉ seen := ⟨hn0, hnseen⟩
    simp only [dedupTag, hn, if_pos hcnd]
    rw [withTag_self (htag a (by simp))]
    rw [ih (n :: seen) ?_ (List.pairwise_cons.mp hpw).2 (fun r2 h2 => htag r2 (by simp [h2]))]
    intro r2 h2
    obtain ⟨m, hm, hm0, hms⟩ := hnum r2 (by simp [h2])
    refine ⟨m, hm, hm0, ?_⟩
    intro hin
    rcases List.mem_cons.mp hin with h1 | h1
    · have := (List.pairwise_cons.mp hpw).1 r2 h2
      rw [hn, hm, h1] at this
      exact this rfl
    · exact hms h1

lemma dedupTag_append (cL : List RawRecord) :
    ∀ (seen : List Int) (l1 l2 : List RawRecord),
      dedupTag cL seen (l1 ++ l2)
        = dedupTag cL seen l1 ++ dedupTag cL (seenAfter seen l1) l2 := by
  intro seen l1
  induction l1 generalizing seen with
  | nil => intro l2; simp [dedupTag, seenAfter]
  | cons a rest ih =>
    intro l2
    cases hn : a.number with
    | none =>
      simp only [List.cons_append, dedupTag, seenAfter, hn, List.append_eq]
      exact ih seen l2
    | some n =>
      by_cases hc : n ≠ 0 ∧ n ∉ seen
      · simp only [List.cons_append, dedupTag, seenAfter, hn, if_pos hc, List.append_eq]
        rw [ih (n :: seen) l2]
      · simp only [List.cons_append, dedupTag, seenAfter, hn, if_neg hc, List.append_eq]
        exact ih seen l2

/-- C6: the partitioner output never holds two records with the same
identifier; every survivor is its source record tagged with membership in
the created set, its tag true exactly when the source was created in
period; and a record qualifying as created lands in the created bucket and
never in the updated bucket, so a record qualifying for both is classified
as created. -/
theorem partition_dedup_total_and_tags (today : Bool) (ps pe : PyDT) (rs : List RawRecord) :
    List.Pairwise (fun a b => a.number ≠ b.number) (filter_period today ps pe rs)
    ∧ (∀ r2 ∈ filter_period today ps pe rs, ∃ r ∈ rs,
        r2 = withTag r (decide (r ∈ created_bucket today ps pe rs))
        ∧ (r2.tag = some true ↔ r ∈ created_bucket today ps pe rs))
    ∧ (∀ r ∈ rs, created_pred today ps pe r = true →
        r ∈ created_bucket today ps pe rs ∧ r ∉ updated_bucket today ps pe rs) := by
  refine ⟨?_, ?_, ?_⟩
  · rw [filter_period_def]
    exact dedupTag_pairwise _ _ _
  · intro r2 h2
    rw [filter_period_def] at h2
    obtain ⟨r, hrmem, n, hn, hn0, _, rfl⟩ := dedupTag_mem_spec _ _ _ r2 h2
    refine ⟨r, ?_, rfl, ?_⟩
    · rcases List.mem_append.mp hrmem with h | h
      · exact (List.mem_filter.mp h).1
      · exact (List.mem_filter.mp h).1
    · rw [withTag_tag]
      simp
  · intro r hr hcp
    refine ⟨List.mem_filter.mpr ⟨hr, hcp⟩, fun hu => ?_⟩
    have h2 := (List.mem_filter.mp hu).2
    rw [updated_pred_eq_false_of_created hcp] at h2
    exact absurd h2 (by simp)

/-- Sample period start, 2024-01-01 UTC. -/
def sample_start : PyDT := { secs := daysFromCivil 2024 1 1 * 86400, aware := true }

/-- Sample period end, 2024-01-03 UTC. -/
def sample_end : PyDT := { secs := daysFromCivil 2024 1 3 * 86400, aware := true }

/-- A record created inside the sample window. -/
def rec_created : RawRecord :=
  { number := some 7, created_at := some "2024-01-02T10:00:00Z" }

/-- A record created before but updated inside the sample window. -/
def rec_updated : RawRecord :=
  { number := some 8, created_at := some "2023-12-30T10:00:00Z",
    updated_at := some "2024-01-02T11:00:00Z" }

/-- A record created inside the sample window whose identifier is the
falsy number zero. -/
def rec_zero_number : RawRecord :=
  { number := some 0, created_at := some "2024-01-02T10:00:00Z" }

/-- Witness for C6 at a two-record input with one created and one updated
record. -/
theorem partition_dedup_total_and_tags_witness :
    rec_created ∈ created_bucket false sample_start sample_end [rec_created, rec_updated]
    ∧ rec_created ∉ updated_bucket false sample_start sample_end [rec_created, rec_updated] :=
  (partition_dedup_total_and_tags false sample_start sample_end
    [rec_created, rec_updated]).2.2 rec_created (by decide) (by decide)

/-- Counterexample to C7: a record created inside the window whose
identifier is the falsy number zero is dropped by the dedup loop, so not
every in-window record appears in the partitioned output. -/
theorem partition_drop_counterexample :
    created_pred false sample_start sample_end rec_zero_number = true
    ∧ filter_period false sample_start sample_end [rec_zero_number] = [] := by
  decide

/-- C7 as amended: every record that qualifies for a bucket appears,
tagged, in the partitioned output, provided its identifier is present,
non-zero and not carried by any other input record; records with missing,
zero or duplicated identifiers are additionally dropped by the dedup
loop, and records with missing or unparsable timestamps are dropped by
the in-window test itself. -/
theorem partition_in_window_kept (today : Bool) (ps pe : PyDT) (rs : List RawRecord)
    (r : RawRecord) (n : Int) (hr : r ∈ rs)
    (hq : created_pred today ps pe r = true ∨ updated_pred today ps pe r = true)
    (hn : r.number = some n) (hn0 : n ≠ 0)
    (huniq : ∀ r2 ∈ rs, r2.number = some n → r2 = r) :
    withTag r (decide (r ∈ created_bucket today ps pe rs))
      ∈ filter_period today ps pe rs := by
  rw [filter_period_def]
  refine dedupTag_mem_of_first _ [] _ r n ?_ hn hn0 (by simp) ?_
  · rcases hq with h | h
    · exact List.mem_append.mpr (Or.inl (List.mem_filter.mpr ⟨hr, h⟩))
    · exact List.mem_append.mpr (Or.inr (List.mem_filter.mpr ⟨hr, h⟩))
  · intro r2 h2 hn2
    refine huniq r2 ?_ hn2
    rcases List.mem_append.mp h2 with h | h
    · exact (List.mem_filter.mp h).1
    · exact (List.mem_filter.mp h).1

/-- Witness for C7 as amended at a single created-in-window record. -/
theorem partition_in_window_kept_witness :
    withTag rec_created
        (decide (rec_created ∈ created_bucket false sample_start sample_end [rec_created]))
      ∈ filter_period false sample_start sample_end [rec_created] :=
  partition_in_window_kept false sample_start sample_end [rec_created] rec_created 7
    (by decide) (Or.inl (by decide)) rfl (by decide) (by decide)

/-- C8: running the partitioner a second time with the same window on its
own output returns the output unchanged: same records, same order, same
created_in_period tags. -/
theorem partition_idempotent (today : Bool) (ps pe : PyDT) (rs : List RawRecord) :
    filter_period today ps pe (filter_period today ps pe rs)
      = filter_period today ps pe rs := by
  have houtsplit : filter_period today ps pe rs
      = dedupTag (created_bucket today ps pe rs) [] (created_bucket today ps pe rs)
        ++ dedupTag (created_bucket today ps pe rs)
             (seenAfter [] (created_bucket today ps pe rs))
             (updated_bucket today ps pe rs) := by
    rw [filter_period_def, dedupTag_append]
  set c := created_bucket today ps pe rs with hc
  set u := updated_bucket today ps pe rs with hu
  set outC := dedupTag c [] c with houtC
  set outU := dedupTag c (seenAfter [] c) u with houtU
  have hC : ∀ r2 ∈ outC, created_pred today ps pe r2 = true
      ∧ updated_pred today ps pe r2 = false ∧ r2.tag = some true := by
    intro r2 h2
    obtain ⟨r, hrc, n, hn, hn0, _, rfl⟩ := dedupTag_mem_spec c [] c r2 h2
    have hcp : created_pred today ps pe r = true := (List.mem_filter.mp hrc).2
    refine ⟨?_, ?_, ?_⟩
    · rw [created_pred_withTag]; exact hcp
    · rw [updated_pred_withTag]; exact updated_pred_eq_false_of_created hcp
    · rw [withTag_tag]
      simp [hrc]
  have hU : ∀ r2 ∈ outU, created_pred today ps pe r2 = false
      ∧ updated_pred today ps pe r2 = true ∧ r2.tag = some false := by
    intro r2 h2
    obtain ⟨r, hru, n, hn, hn0, _, rfl⟩ := dedupTag_mem_spec c (seenAfter [] c) u r2 h2
    have hup : updated_pred today ps pe r = true := (List.mem_filter.mp hru).2
    have hcp : created_pred today ps pe r = false := created_pred_eq_false_of_updated hup
    have hnc : r ∉ c := by
      intro hin
      have h2 := (List.mem_filter.mp hin).2
      rw [hcp] at h2
      exact absurd h2 (by simp)
    refine ⟨?_, ?_, ?_⟩
    · rw [created_pred_withTag]; exact hcp
    · rw [updated_pred_withTag]; exact hup
    · rw [withTag_tag]
      simp [hnc]
  have hcb2 : created_bucket today ps pe (filter_period today ps pe rs) = outC := by
    rw [houtsplit]
    show (outC ++ outU).filter (created_pred today ps pe) = outC
    rw [List.filter_append]
    rw [List.filter_eq_self.mpr (fun a ha => (hC a ha).1)]
    rw [List.filter_eq_nil_iff.mpr (fun a ha => by simp [(hU a ha).1])]
    simp
  have hub2 : updated_bucket today ps pe (filter_period today ps pe rs) = outU := by
    rw [houtsplit]
    show (outC ++ outU).filter (updated_pred today ps pe) = outU
    rw [List.filter_append]
    rw [List.filter_eq_nil_iff.mpr (fun a ha => by simp [(hC a ha).2.1])]
    rw [List.filter_eq_self.mpr (fun a ha => (hU a ha).2.1)]
    simp
  rw [filter_period_def, hcb2, hub2]
  rw [houtsplit]
  refine dedupTag_eq_self outC [] (outC ++ outU) ?_ ?_ ?_
  · intro r2 h2
    have h3 : r2 ∈ filter_period today ps pe rs := by rw [houtsplit]; exact h2
    rw [filter_period_def] at h3
    obtain ⟨r, _, n, hn, hn0, _, rfl⟩ := dedupTag_mem_spec _ _ _ r2 h3
    exact ⟨n, by rw [withTag_number]; exact hn, hn0, by simp⟩
  · have h4 := dedupTag_pairwise c [] (c ++ u)
    rw [← filter_period_def] at h4
    rw [houtsplit] at h4
    exact h4
  · intro r2 h2
    rcases List.mem_append.mp h2 with h | h
    · rw [(hC r2 h).2.2]
      simp [h]
    · have hnotC : r2 ∉ outC := by
        intro hin
        have h5 := (hC r2 hin).1
        rw [(hU r2 h).1] at h5
        exact absurd h5 (by simp)
      rw [(hU r2 h).2.2]
      simp [hnotC]

end RepoBot
